import Mathlib

/-!
# Verification of the LRU-K replacement policy (`src/buffer/lru_k_replacer.cpp`)

Shallow embedding of the `bustub::LRUKReplacer` class from
`src/buffer/lru_k_replacer.cpp` and `src/include/buffer/lru_k_replacer.h`.

Modelling decisions, all taken from the source:

* `size_t` arithmetic is modelled as `Nat` arithmetic modulo `2^64`
  (`USIZE`); in particular `current_timestamp_ - x` and the `curr_size_`
  decrement wrap around exactly as unsigned C++ arithmetic does.
* `frame_id_t` is `int32_t` in the source; every claim concerns
  non-negative ids, so frame ids are modelled as `Nat` (on which
  `static_cast<size_t>` is the identity).
* `std::unordered_map<frame_id_t, LRUKNode> node_store_` is modelled as an
  association list with at most one entry per key.  The iteration order of
  an `unordered_map` is unspecified in C++; the embedding fixes it to the
  list order, with new entries appended at the end (insertion order).
* C++ exceptions (`throw std::exception()` / `throw std::out_of_range`)
  become `Except.error`; a throw before any mutation returns no new state,
  which models "state unchanged".
* In `SetEvictable`, the source's insertion of a missing node
  (`node_store_.emplace(std::make_pair(frame_id,new_node))` followed by
  `node_store_[frame_id]`, where `operator[]` default-constructs a missing
  entry) is modelled as inserting a default-constructed `LRUKNode`.
* `Evict` takes `frame_id_t *frame_id` as an out-parameter and, on some
  paths, returns `true` without ever assigning `*frame_id`; the embedding
  therefore passes the out-parameter's prior value in and returns the
  value it holds afterwards.
-/

namespace LRUK

/-- `2 ^ 64`, the modulus of the C++ `size_t` arithmetic used throughout
the replacer. -/
def USIZE : Nat := 2 ^ 64

/-- `size_t` increment (`x++`) with wraparound. -/
def inc64 (n : Nat) : Nat := (n + 1) % USIZE

/-- `size_t` decrement (`x--`) with wraparound: `0 - 1` wraps to
`2^64 - 1`. -/
def dec64 (n : Nat) : Nat := (n + (USIZE - 1)) % USIZE

/-- `size_t` subtraction `a - b` with wraparound, as in
`current_timestamp_ - node.GetBackKTimeStamp()`. -/
def sub64 (a b : Nat) : Nat := (a + (USIZE - b % USIZE)) % USIZE

/-- `enum class AccessType { Unknown = 0, Lookup, Scan, Index }` from
`lru_k_replacer.h`. -/
inductive AccessType where
  | Unknown
  | Lookup
  | Scan
  | Index
deriving DecidableEq

/-- The two kinds of exception the replacer throws: the range-check
throws (`std::out_of_range` / the `std::exception` thrown on the
`RecordAccess` range check) and the `std::exception` thrown by `Remove`
on a tracked but non-evictable frame. -/
inductive ReplacerErr where
  | InvalidFrame
  | NotEvictable
deriving DecidableEq

/-- Equality of `Except` results is decidable componentwise; this lets the
concrete evaluations below be settled by `decide`. -/
instance exceptDecEq {ε α : Type} [DecidableEq ε] [DecidableEq α] :
    DecidableEq (Except ε α)
  | Except.ok a, Except.ok b =>
      if h : a = b then isTrue (by rw [h])
      else isFalse (by intro he; cases he; exact h rfl)
  | Except.ok _, Except.error _ => isFalse (by intro h; cases h)
  | Except.error _, Except.ok _ => isFalse (by intro h; cases h)
  | Except.error e, Except.error f =>
      if h : e = f then isTrue (by rw [h])
      else isFalse (by intro he; cases he; exact h rfl)

/-- `class LRUKNode` from `lru_k_replacer.h`: the per-frame access record.
`history_` holds the recorded access timestamps, oldest at the front
(`push_back` appends the newest at the back). -/
structure LRUKNode where
  history_ : List Nat
  fid_ : Int
  k_ : Nat
  is_evictable_ : Bool
deriving DecidableEq

/-- The default-constructed `LRUKNode`: `LRUKNode() {fid_=-1;k_=0;}` with
the in-class initialisers `history_` empty and `is_evictable_{false}`. -/
def defaultLRUKNode : LRUKNode :=
  { history_ := [], fid_ := -1, k_ := 0, is_evictable_ := false }

/-- `LRUKNode::GetBackKTimeStamp()`: the front (oldest) recorded
timestamp, or `std::numeric_limits<size_t>::max()` when the history is
empty. -/
def GetBackKTimeStamp (n : LRUKNode) : Nat :=
  match n.history_ with
  | [] => USIZE - 1
  | t :: _ => t

/-- `lookupNode fid l` models `node_store_.find(fid)` /
`node_store_[fid]` on an existing key: the node stored under `fid`, if
any. -/
def lookupNode (fid : Nat) : List (Nat × LRUKNode) → Option LRUKNode
  | [] => none
  | (i, n) :: rest => if i = fid then some n else lookupNode fid rest

/-- `eraseKey fid l` models `node_store_.erase(fid)`: the entry for `fid`
is removed (the map holds at most one entry per key). -/
def eraseKey (fid : Nat) : List (Nat × LRUKNode) → List (Nat × LRUKNode)
  | [] => []
  | (i, n) :: rest =>
      if i = fid then eraseKey fid rest else (i, n) :: eraseKey fid rest

/-- `updateKey fid f l` models an in-place mutation of
`node_store_[fid]` through a reference: the node stored under `fid` is
replaced by `f` of itself. -/
def updateKey (fid : Nat) (f : LRUKNode → LRUKNode) :
    List (Nat × LRUKNode) → List (Nat × LRUKNode)
  | [] => []
  | (i, n) :: rest =>
      if i = fid then (i, f n) :: rest else (i, n) :: updateKey fid f rest

/-- `insertIfAbsent fid l` models `operator[]` creating a
default-constructed entry for a missing key (and the preceding `emplace`
of a fresh node in `SetEvictable`): if `fid` is absent a default node is
inserted, otherwise the map is unchanged. -/
def insertIfAbsent (fid : Nat) (l : List (Nat × LRUKNode)) :
    List (Nat × LRUKNode) :=
  match lookupNode fid l with
  | some _ => l
  | none => l ++ [(fid, defaultLRUKNode)]

/-- `class LRUKReplacer`: the replacer state.  The two dead members
`less_than_k` / `more_than_k` of the header are never read or written by
any member function and are omitted; the `std::mutex latch_` only
serialises calls and has no sequential semantics. -/
structure LRUKReplacer where
  node_store_ : List (Nat × LRUKNode)
  current_timestamp_ : Nat
  curr_size_ : Nat
  replacer_size_ : Nat
  k_ : Nat
deriving DecidableEq

/-- `LRUKReplacer::LRUKReplacer(size_t num_frames, size_t k)`: sets
`replacer_size_` and `k_`; the in-class initialisers leave the store
empty and the timestamp and size at `0`. -/
def mkLRUKReplacer (num_frames k : Nat) : LRUKReplacer :=
  { node_store_ := []
    current_timestamp_ := 0
    curr_size_ := 0
    replacer_size_ := num_frames
    k_ := k }

/-- `LRUKReplacer::Size()`: returns `curr_size_`. -/
def Size (st : LRUKReplacer) : Nat := st.curr_size_

/-- Whether `fid` has a tracked access record
(`node_store_.find(fid) != node_store_.end()`). -/
def tracked (fid : Nat) (st : LRUKReplacer) : Bool :=
  (lookupNode fid st.node_store_).isSome

/-- The stored access history of frame `fid`, when tracked. -/
def historyOf (fid : Nat) (st : LRUKReplacer) : Option (List Nat) :=
  (lookupNode fid st.node_store_).map (·.history_)

/-- The number of tracked records whose `is_evictable_` flag is set. -/
def evictableCount (st : LRUKReplacer) : Nat :=
  (st.node_store_.filter (fun p => p.2.is_evictable_)).length

/-- The backward k-distance value the source computes for a node:
`current_timestamp_ - node.GetBackKTimeStamp()` in `size_t`
arithmetic. -/
def backKDist (st : LRUKReplacer) (n : LRUKNode) : Nat :=
  sub64 st.current_timestamp_ (GetBackKTimeStamp n)

/-- `LRUKReplacer::RecordAccess(frame_id, access_type)`.

Faithful to the source, including two slips:

* the range check is `if (replacer_size_ > frame_id) throw`, i.e. it
  throws exactly when `frame_id < replacer_size_` (the comment next to it
  says the intent was to reject `frame_id` beyond the capacity);
* in the already-tracked branch, `auto node = node_store_[frame_id];`
  copies the node by value, so the `push_back` / `pop_front` that follow
  mutate a discarded copy: the stored record is unchanged and only
  `current_timestamp_` moves.

In the untracked branch a fresh node is built and, unless the access type
is `Scan`, the new timestamp is pushed onto its history before the node
is inserted. -/
def recordAccess (st : LRUKReplacer) (fid : Nat) (access_type : AccessType) :
    Except ReplacerErr LRUKReplacer :=
  if fid < st.replacer_size_ then Except.error ReplacerErr.InvalidFrame
  else if lookupNode fid st.node_store_ = none then
    Except.ok { st with
      current_timestamp_ := inc64 st.current_timestamp_
      node_store_ := st.node_store_ ++
        [(fid,
          if access_type ≠ AccessType.Scan then
            { defaultLRUKNode with history_ := [inc64 st.current_timestamp_] }
          else defaultLRUKNode)] }
  else
    Except.ok { st with current_timestamp_ := inc64 st.current_timestamp_ }

/-- `LRUKReplacer::SetEvictable(frame_id, set_evictable)`.

The range check `if (replacer_size_ < frame_id) throw` accepts
`frame_id = replacer_size_`.  A missing record is created
default-constructed (see `insertIfAbsent`) *before* the flag is
inspected; then, exactly when the stored flag differs from the argument,
`curr_size_` is bumped and the flag written. -/
def setEvictable (st : LRUKReplacer) (fid : Nat) (flag : Bool) :
    Except ReplacerErr LRUKReplacer :=
  if st.replacer_size_ < fid then Except.error ReplacerErr.InvalidFrame
  else if ((lookupNode fid (insertIfAbsent fid st.node_store_)).getD
      defaultLRUKNode).is_evictable_ ≠ flag then
    Except.ok { st with
      node_store_ :=
        updateKey fid (fun m => { m with is_evictable_ := flag })
          (insertIfAbsent fid st.node_store_)
      curr_size_ :=
        if flag then inc64 st.curr_size_ else dec64 st.curr_size_ }
  else
    Except.ok { st with node_store_ := insertIfAbsent fid st.node_store_ }

/-- `LRUKReplacer::Remove(frame_id)`.

Range check as in `SetEvictable`; a missing record returns silently; a
tracked non-evictable record throws before any mutation; otherwise the
record is erased and `curr_size_` decremented.  (The source clears the
history of the node through a reference after erasing it from the map;
that last write has no observable effect on the replacer state.) -/
def remove (st : LRUKReplacer) (fid : Nat) : Except ReplacerErr LRUKReplacer :=
  if st.replacer_size_ < fid then Except.error ReplacerErr.InvalidFrame
  else if lookupNode fid st.node_store_ = none then Except.ok st
  else if ((lookupNode fid st.node_store_).getD defaultLRUKNode).is_evictable_
      = false then
    Except.error ReplacerErr.NotEvictable
  else
    Except.ok { st with
      node_store_ := eraseKey fid st.node_store_
      curr_size_ := dec64 st.curr_size_ }

/-- The tail of `Evict`'s loop body once `success` is `true`: decrement
`curr_size_`, erase the entry stored under the current value of the
out-parameter, and return `true` with that value.  (The
`evit_node.history_.clear()` of the source clears a local copy and is
unobservable.) -/
def evictFinish (st : LRUKReplacer) (fid : Nat) : Bool × Nat × LRUKReplacer :=
  (true, fid,
    { st with
        curr_size_ := dec64 st.curr_size_
        node_store_ := eraseKey fid st.node_store_ })

/-- One iteration of `Evict`'s loop body for an evictable node `(i, n)`,
with `fid` the current value of the out-parameter `*frame_id`.

The source returns from inside this iteration, so when the three
conditions below are evaluated the loop-carried variables still hold
their initial values: `is_inf = false` (hence the `&& !is_inf` guard on
the full-history branch is satisfied and is not modelled separately) and
`max_bkd = max_lessk_bkd = 0` (hence both strict comparisons reduce to
`backKDist st n > 0`).

* `history_.empty()` assigns `i` to the out-parameter;
* `history_.size() == k_` assigns `i` when `backKDist > max_bkd (= 0)`;
* `else if history_.size() < k_` assigns `i` when
  `backKDist > max_lessk_bkd (= 0)`;

and when none of the assignments fires the out-parameter keeps its prior
(stale) value. -/
def evictStep (st : LRUKReplacer) (i : Nat) (n : LRUKNode) (fid : Nat) :
    Bool × Nat × LRUKReplacer :=
  evictFinish st
    (if n.history_.length = st.k_ then
      (if backKDist st n > 0 then i
       else if n.history_ = [] then i else fid)
    else if n.history_.length < st.k_ then
      (if backKDist st n > 0 then i
       else if n.history_ = [] then i else fid)
    else if n.history_ = [] then i else fid)

/-- The loop `for (auto &it : node_store_)` of `Evict`: non-evictable
nodes are skipped (`continue`); the first evictable node runs
`evictStep`, which returns; an exhausted loop falls through to
`return false`. -/
def evictScan (st : LRUKReplacer) :
    List (Nat × LRUKNode) → Nat → Bool × Nat × LRUKReplacer
  | [], fid => (false, fid, st)
  | (i, n) :: rest, fid =>
      if n.is_evictable_ then evictStep st i n fid else evictScan st rest fid

/-- `LRUKReplacer::Evict(frame_id_t *frame_id)`.  `fid` is the value the
out-parameter holds on entry; the middle component of the result is the
value it holds on return.  `curr_size_ <= 0` on a `size_t` means
`curr_size_ = 0`. -/
def evict (st : LRUKReplacer) (fid : Nat) : Bool × Nat × LRUKReplacer :=
  if st.curr_size_ = 0 then (false, fid, st)
  else evictScan st st.node_store_ fid

/-! ## Lemmas about the association-list map -/

/-- A key found in `l` is found, with the same node, in `l ++ l'`. -/
theorem lookupNode_append_some {g : Nat} {l : List (Nat × LRUKNode)}
    {n : LRUKNode} (h : lookupNode g l = some n) (l' : List (Nat × LRUKNode)) :
    lookupNode g (l ++ l') = some n := by
  induction l with
  | nil => simp [lookupNode] at h
  | cons p rest ih =>
      obtain ⟨i, m⟩ := p
      rw [List.cons_append]
      simp only [lookupNode] at h ⊢
      by_cases hi : i = g
      · rwa [if_pos hi] at h ⊢
      · rw [if_neg hi] at h ⊢
        exact ih h

/-- A key absent from `l` is looked up in `l'` when searching `l ++ l'`. -/
theorem lookupNode_append_none {g : Nat} {l : List (Nat × LRUKNode)}
    (h : lookupNode g l = none) (l' : List (Nat × LRUKNode)) :
    lookupNode g (l ++ l') = lookupNode g l' := by
  induction l with
  | nil => simp
  | cons p rest ih =>
      obtain ⟨i, m⟩ := p
      rw [List.cons_append]
      simp only [lookupNode] at h ⊢
      by_cases hi : i = g
      · rw [if_pos hi] at h
        cases h
      · rw [if_neg hi] at h ⊢
        exact ih h

/-- `updateKey` rewrites exactly the node stored under `fid`. -/
theorem lookupNode_updateKey (g fid : Nat) (f : LRUKNode → LRUKNode)
    (l : List (Nat × LRUKNode)) :
    lookupNode g (updateKey fid f l) =
      if g = fid then (lookupNode g l).map f else lookupNode g l := by
  induction l with
  | nil => by_cases hg : g = fid <;> simp [lookupNode, updateKey, hg]
  | cons p rest ih =>
      obtain ⟨i, m⟩ := p
      by_cases hif : i = fid <;> by_cases hig : i = g
      · have hgf : g = fid := by rw [← hig, hif]
        simp [updateKey, lookupNode, hif, hig, hgf]
      · have hgf : ¬ g = fid := fun hh => hig (by rw [hif, hh])
        have hfg : ¬ fid = g := fun hh => hgf hh.symm
        simp [updateKey, lookupNode, hif, hig, hgf, hfg]
      · have hgf : ¬ g = fid := fun hh => hif (by rw [hig, hh])
        simp [updateKey, lookupNode, hif, hig, hgf, ih]
      · simp [updateKey, lookupNode, hif, hig, ih]

/-- `eraseKey` removes exactly the node stored under `fid`. -/
theorem lookupNode_eraseKey (g fid : Nat) (l : List (Nat × LRUKNode)) :
    lookupNode g (eraseKey fid l) =
      if g = fid then none else lookupNode g l := by
  induction l with
  | nil => by_cases hg : g = fid <;> simp [lookupNode, eraseKey, hg]
  | cons p rest ih =>
      obtain ⟨i, m⟩ := p
      by_cases hif : i = fid <;> by_cases hig : i = g
      · have hgf : g = fid := by rw [← hig, hif]
        subst hgf
        simp [eraseKey, lookupNode, hif, ih]
      · have hgf : ¬ g = fid := fun hh => hig (by rw [hif, hh])
        have hfg : ¬ fid = g := fun hh => hgf hh.symm
        simp [eraseKey, lookupNode, hif, hig, hgf, hfg, ih]
      · have hgf : ¬ g = fid := fun hh => hif (by rw [hig, hh])
        simp [eraseKey, lookupNode, hif, hig, hgf]
      · simp [eraseKey, lookupNode, hif, hig, ih]

/-- Looking up after `insertIfAbsent`: under `fid` one finds the old node
or, when it was absent, the default node; every other key is
untouched. -/
theorem lookupNode_insertIfAbsent (g fid : Nat) (l : List (Nat × LRUKNode)) :
    lookupNode g (insertIfAbsent fid l) =
      if g = fid then some ((lookupNode fid l).getD defaultLRUKNode)
      else lookupNode g l := by
  unfold insertIfAbsent
  cases hf : lookupNode fid l with
  | some n =>
      by_cases hg : g = fid
      · rw [if_pos hg, hg, hf]
        rfl
      · rw [if_neg hg]
  | none =>
      by_cases hg : g = fid
      · rw [if_pos hg, hg, lookupNode_append_none hf]
        simp [lookupNode, hf]
      · rw [if_neg hg]
        cases hgl : lookupNode g l with
        | some m => exact lookupNode_append_some hgl _
        | none =>
            rw [lookupNode_append_none hgl]
            simp [lookupNode, show ¬ fid = g from fun hh => hg hh.symm]

/-- On `size_t` values below `2^64`, `dec64` of a positive value is the
ordinary predecessor. -/
theorem dec64_eq_pred {c : Nat} (h0 : 0 < c) (h1 : c < USIZE) :
    dec64 c = c - 1 := by
  have hU : USIZE = 18446744073709551616 := by norm_num [USIZE]
  unfold dec64
  rw [show c + (USIZE - 1) = (c - 1) + USIZE from by omega,
    Nat.add_mod_right, Nat.mod_eq_of_lt (by omega)]

/-! ## Concrete states used by the claim theorems -/

/-- The state after `RecordAccess(5, Lookup)` on a fresh
`LRUKReplacer(3, 2)`: frame 5 (which passes the inverted range check) is
tracked with history `[1]`. -/
def stAfter5 : LRUKReplacer :=
  { node_store_ :=
      [(5, { history_ := [1], fid_ := -1, k_ := 0, is_evictable_ := false })]
    current_timestamp_ := 1
    curr_size_ := 0
    replacer_size_ := 3
    k_ := 2 }

/-- The state after a second `RecordAccess(5, Lookup)`: only the clock
moved, the stored history is still `[1]`. -/
def stAfter5b : LRUKReplacer := { stAfter5 with current_timestamp_ := 2 }

/-- The state after `RecordAccess(5, Scan)` on a fresh
`LRUKReplacer(3, 2)`: frame 5 is tracked with an empty history. -/
def stScan5 : LRUKReplacer :=
  { node_store_ := [(5, defaultLRUKNode)]
    current_timestamp_ := 1
    curr_size_ := 0
    replacer_size_ := 3
    k_ := 2 }

/-- A replacer with two evictable frames, both with a full `k = 1`
history: frame 0 was last touched at time 5 (backward k-distance 5),
frame 1 at time 2 (backward k-distance 8). -/
def stTwoFull : LRUKReplacer :=
  { node_store_ :=
      [(0, { history_ := [5], fid_ := -1, k_ := 0, is_evictable_ := true }),
       (1, { history_ := [2], fid_ := -1, k_ := 0, is_evictable_ := true })]
    current_timestamp_ := 10
    curr_size_ := 2
    replacer_size_ := 2
    k_ := 1 }

/-- A replacer (`k = 2`, `now = 10`) whose only evictable frame, 0, was
touched exactly at the current timestamp, and whose frame 1 is tracked
but not evictable.  `Evict`'s scan reaches frame 0 but the strict
comparison `cur_less_bkd > 0` fails (the distance is 0), so the
out-parameter is never assigned. -/
def stStale : LRUKReplacer :=
  { node_store_ :=
      [(0, { history_ := [10], fid_ := -1, k_ := 0, is_evictable_ := true }),
       (1, { history_ := [], fid_ := -1, k_ := 0, is_evictable_ := false })]
    current_timestamp_ := 10
    curr_size_ := 1
    replacer_size_ := 2
    k_ := 2 }

/-- The state produced by `SetEvictable(5, false)` on a fresh
`LRUKReplacer(10, 2)`: a default record for frame 5 has been created. -/
def stSetFalse : LRUKReplacer :=
  { node_store_ := [(5, defaultLRUKNode)]
    current_timestamp_ := 0
    curr_size_ := 0
    replacer_size_ := 10
    k_ := 2 }

/-- The state after `RecordAccess(3, Lookup)` on a fresh
`LRUKReplacer(3, 2)`: of Scenario A's frames, only the out-of-range
frame 3 passes the inverted range check. -/
def stAfter3 : LRUKReplacer :=
  { node_store_ :=
      [(3, { history_ := [1], fid_ := -1, k_ := 0, is_evictable_ := false })]
    current_timestamp_ := 1
    curr_size_ := 0
    replacer_size_ := 3
    k_ := 2 }

/-- A small well-formed replacer used to witness the `Remove` theorem:
frame 0 is tracked and evictable, frame 1 tracked and pinned. -/
def stRemW : LRUKReplacer :=
  { node_store_ :=
      [(0, { history_ := [1], fid_ := -1, k_ := 0, is_evictable_ := true }),
       (1, { history_ := [2], fid_ := -1, k_ := 0, is_evictable_ := false })]
    current_timestamp_ := 2
    curr_size_ := 1
    replacer_size_ := 3
    k_ := 2 }

/-! ## Claim theorems -/

/-- C1: refuted on the code.  In `stTwoFull` both frames are evictable
with a full `k`-length history, and frame 1 has the strictly larger
backward k-distance (8 versus 5), so the claimed policy must evict
frame 1; but `Evict` returns from inside the first loop iteration and
evicts frame 0, the first evictable frame in iteration order. -/
theorem evict_not_max_distance :
    ((lookupNode 0 stTwoFull.node_store_).getD defaultLRUKNode).is_evictable_
        = true ∧
    ((lookupNode 1 stTwoFull.node_store_).getD defaultLRUKNode).is_evictable_
        = true ∧
    ((lookupNode 0 stTwoFull.node_store_).getD
        defaultLRUKNode).history_.length = stTwoFull.k_ ∧
    ((lookupNode 1 stTwoFull.node_store_).getD
        defaultLRUKNode).history_.length = stTwoFull.k_ ∧
    backKDist stTwoFull ((lookupNode 0 stTwoFull.node_store_).getD
        defaultLRUKNode) <
      backKDist stTwoFull ((lookupNode 1 stTwoFull.node_store_).getD
        defaultLRUKNode) ∧
    (evict stTwoFull 7).1 = true ∧ (evict stTwoFull 7).2.1 = 0 := by
  decide

/-- C2: refuted on the code.  On a fresh `LRUKReplacer(3, 2)`, the
in-range frame 0 makes `RecordAccess` throw `InvalidFrame`, while the
out-of-range frame 5 is accepted, bumps the clock and is recorded: the
range check `if (replacer_size_ > frame_id) throw` is inverted. -/
theorem recordAccess_range_check_inverted :
    (0 < (mkLRUKReplacer 3 2).replacer_size_ ∧
      recordAccess (mkLRUKReplacer 3 2) 0 AccessType.Lookup
        = Except.error ReplacerErr.InvalidFrame) ∧
    (¬ 5 < (mkLRUKReplacer 3 2).replacer_size_ ∧
      recordAccess (mkLRUKReplacer 3 2) 5 AccessType.Lookup
        = Except.ok stAfter5) := by
  decide

/-- C3: refuted on the code.  A second non-scan `RecordAccess` on the
already-tracked frame 5 moves the clock to 2 but leaves the stored
history at `[1]` instead of appending (`auto node = node_store_[frame_id]`
copies the node, so the `push_back` mutates a discarded copy). -/
theorem recordAccess_tracked_history_unchanged :
    recordAccess (mkLRUKReplacer 3 2) 5 AccessType.Lookup
      = Except.ok stAfter5 ∧
    historyOf 5 stAfter5 = some [1] ∧
    recordAccess stAfter5 5 AccessType.Lookup = Except.ok stAfter5b ∧
    stAfter5b.current_timestamp_ = 2 ∧
    historyOf 5 stAfter5b = some [1] := by
  decide

/-- C4: refuted on the code.  In `stStale`, frame 1 is tracked and not
evictable, yet `Evict` (with the out-parameter previously holding 1)
succeeds and returns frame 1: the only evictable frame's tentative
distance is 0, the strict `> 0` comparison fails, the out-parameter is
never assigned, and the stale value is returned — and its record is the
one erased. -/
theorem evict_returns_nonevictable_frame :
    ((lookupNode 1 stStale.node_store_).getD defaultLRUKNode).is_evictable_
        = false ∧
    tracked 1 stStale = true ∧
    (evict stStale 1).1 = true ∧
    (evict stStale 1).2.1 = 1 ∧
    tracked 1 (evict stStale 1).2.2 = false := by
  decide

/-- C5: refuted on the code.  `stStale` satisfies the size invariant
(`Size = 1 =` number of evictable records), but after the successful
`Evict` the size is 0 while one evictable record (frame 0) is still
tracked: `Evict` decremented `curr_size_` yet erased the non-evictable
frame 1 instead. -/
theorem size_invariant_broken_after_evict :
    Size stStale = evictableCount stStale ∧
    (evict stStale 1).1 = true ∧
    Size (evict stStale 1).2.2 = 0 ∧
    evictableCount (evict stStale 1).2.2 = 1 := by
  decide

/-- C6: refuted on the code.  In the spec's Scenario A
(`LRUKReplacer(3, 2)`, accesses to frames 1, 2, 3, 1), the very first
call `RecordAccess(1)` already throws `InvalidFrame` (the inverted range
check rejects every in-range frame), so the scenario cannot reach the
state from which `Evict` would return frame 2; of the scenario's frames
only the out-of-range frame 3 is accepted. -/
theorem scenarioA_first_access_throws :
    recordAccess (mkLRUKReplacer 3 2) 1 AccessType.Lookup
      = Except.error ReplacerErr.InvalidFrame ∧
    recordAccess (mkLRUKReplacer 3 2) 2 AccessType.Lookup
      = Except.error ReplacerErr.InvalidFrame ∧
    recordAccess (mkLRUKReplacer 3 2) 1 AccessType.Lookup
      ≠ Except.ok stAfter5 ∧
    recordAccess (mkLRUKReplacer 3 2) 3 AccessType.Lookup
      = Except.ok stAfter3 := by
  decide

/-- C7, counterexample: on the same fresh replacer and the same frame 5
(at the same logical time 1), a `Scan` access leaves the created record's
history empty while a `Lookup` access stores `[1]`: scan accesses are not
recorded the way other access types are. -/
theorem scan_access_differs_from_lookup :
    recordAccess (mkLRUKReplacer 3 2) 5 AccessType.Scan
      = Except.ok stScan5 ∧
    recordAccess (mkLRUKReplacer 3 2) 5 AccessType.Lookup
      = Except.ok stAfter5 ∧
    historyOf 5 stScan5 = some [] ∧
    historyOf 5 stAfter5 = some [1] ∧
    historyOf 5 stScan5 ≠ historyOf 5 stAfter5 := by
  decide

/-- C7, amended: a `Scan` access is never appended to any stored
history — the code hard-codes ignoring scans (it behaves as
`ignore_scans = true`).  Whenever `RecordAccess(fid, Scan)` does not
throw, every already-tracked frame's history is unchanged, and if `fid`
was untracked its freshly created record has an empty history. -/
theorem scan_access_never_appends_history (st : LRUKReplacer) (fid : Nat)
    (st' : LRUKReplacer)
    (h : recordAccess st fid AccessType.Scan = Except.ok st') :
    (∀ g, tracked g st = true → historyOf g st' = historyOf g st) ∧
    (tracked fid st = false → historyOf fid st' = some []) := by
  unfold recordAccess at h
  by_cases hrange : fid < st.replacer_size_
  · rw [if_pos hrange] at h
    exact Except.noConfusion h
  · rw [if_neg hrange] at h
    by_cases habs : lookupNode fid st.node_store_ = none
    · rw [if_pos habs] at h
      injection h with h
      subst h
      constructor
      · intro g hg
        cases hn : lookupNode g st.node_store_ with
        | none => simp [tracked, hn] at hg
        | some n => simp [historyOf, lookupNode_append_some hn, hn]
      · intro _
        simp [historyOf, lookupNode_append_none habs, lookupNode,
          defaultLRUKNode]
    · rw [if_neg habs] at h
      injection h with h
      subst h
      constructor
      · intro g _
        simp [historyOf]
      · intro hfid
        cases hn : lookupNode fid st.node_store_ with
        | none => exact absurd hn habs
        | some n => simp [tracked, hn] at hfid

/-- Witness for `scan_access_never_appends_history`, at the concrete
input of the counterexample: the scan-created record for frame 5 has an
empty history. -/
theorem scan_access_never_appends_history_witness :
    recordAccess (mkLRUKReplacer 3 2) 5 AccessType.Scan
      = Except.ok stScan5 ∧
    (tracked 5 (mkLRUKReplacer 3 2) = false →
      historyOf 5 stScan5 = some []) :=
  ⟨by decide,
   (scan_access_never_appends_history (mkLRUKReplacer 3 2) 5 stScan5
     (by decide)).2⟩

/-- C8: confirmed.  For an in-range `fid`, `Remove` returns silently and
unchanged on an untracked frame, throws `NotEvictable` (before any
mutation — the error branch returns no new state) on a tracked
non-evictable frame, and on a tracked evictable frame erases the record
and decrements `Size()` by exactly 1 (the bounds on `curr_size_` rule
out `size_t` wraparound). -/
theorem remove_spec (st : LRUKReplacer) (fid : Nat)
    (h1 : fid < st.replacer_size_) :
    (lookupNode fid st.node_store_ = none → remove st fid = Except.ok st) ∧
    (∀ n, lookupNode fid st.node_store_ = some n → n.is_evictable_ = false →
      remove st fid = Except.error ReplacerErr.NotEvictable) ∧
    (∀ n, lookupNode fid st.node_store_ = some n → n.is_evictable_ = true →
      0 < st.curr_size_ → st.curr_size_ < USIZE →
      remove st fid = Except.ok
        { st with node_store_ := eraseKey fid st.node_store_,
                  curr_size_ := st.curr_size_ - 1 } ∧
      lookupNode fid (eraseKey fid st.node_store_) = none) := by
  have hrange : ¬ st.replacer_size_ < fid := Nat.lt_asymm h1
  refine ⟨?_, ?_, ?_⟩
  · intro hn
    unfold remove
    rw [if_neg hrange, if_pos hn]
  · intro n hn hev
    unfold remove
    rw [if_neg hrange, hn]
    simp [hev]
  · intro n hn hev hpos hlt
    have hdec : dec64 st.curr_size_ = st.curr_size_ - 1 :=
      dec64_eq_pred hpos hlt
    constructor
    · unfold remove
      rw [if_neg hrange, hn]
      simp [hev, hdec]
    · rw [lookupNode_eraseKey]
      simp

/-- Witness for `remove_spec`: removing the tracked evictable frame 0 of
`stRemW` erases its record and takes `Size()` from 1 to 0. -/
theorem remove_spec_witness :
    0 < stRemW.replacer_size_ ∧
    remove stRemW 0 = Except.ok
      { stRemW with node_store_ := eraseKey 0 stRemW.node_store_,
                    curr_size_ := stRemW.curr_size_ - 1 } :=
  ⟨by decide,
   ((remove_spec stRemW 0 (by decide)).2.2
     { history_ := [1], fid_ := -1, k_ := 0, is_evictable_ := true }
     (by decide) rfl (by decide) (by decide)).1⟩

/-- C9: refuted on the code.  `SetEvictable(5, false)` on a fresh
`LRUKReplacer(10, 2)`, where frame 5 is untracked, is not a no-op: it
creates a default access record for frame 5 (the insertion happens
before the flag is inspected), so the state changes. -/
theorem setEvictable_false_creates_record :
    tracked 5 (mkLRUKReplacer 10 2) = false ∧
    setEvictable (mkLRUKReplacer 10 2) 5 false = Except.ok stSetFalse ∧
    tracked 5 stSetFalse = true ∧
    stSetFalse ≠ mkLRUKReplacer 10 2 := by
  decide

/-- C10: confirmed.  Whenever `SetEvictable` returns normally, the
stored history of every previously tracked frame is unchanged, and any
frame that became tracked by the call (the default-constructed record
`operator[]` creates for a missing key) has an empty history.  A throwing
call mutates nothing. -/
theorem setEvictable_preserves_histories (st : LRUKReplacer) (fid : Nat)
    (flag : Bool) (st' : LRUKReplacer)
    (h : setEvictable st fid flag = Except.ok st') :
    (∀ g, tracked g st = true → historyOf g st' = historyOf g st) ∧
    (∀ g, tracked g st = false → tracked g st' = true →
      historyOf g st' = some []) := by
  unfold setEvictable at h
  by_cases hrange : st.replacer_size_ < fid
  · rw [if_pos hrange] at h
    exact Except.noConfusion h
  · rw [if_neg hrange] at h
    by_cases hflag :
        ((lookupNode fid (insertIfAbsent fid st.node_store_)).getD
          defaultLRUKNode).is_evictable_ ≠ flag
    · rw [if_pos hflag] at h
      injection h with h
      subst h
      constructor
      · intro g hg
        cases hn : lookupNode g st.node_store_ with
        | none => simp [tracked, hn] at hg
        | some n =>
            by_cases hgf : g = fid
            · subst hgf
              simp [historyOf, lookupNode_updateKey,
                lookupNode_insertIfAbsent, hn]
            · simp [historyOf, lookupNode_updateKey,
                lookupNode_insertIfAbsent, hgf, hn]
      · intro g hg hg'
        cases hn : lookupNode g st.node_store_ with
        | some n => simp [tracked, hn] at hg
        | none =>
            by_cases hgf : g = fid
            · subst hgf
              simp [historyOf, lookupNode_updateKey,
                lookupNode_insertIfAbsent, hn, defaultLRUKNode]
            · simp [tracked, lookupNode_updateKey,
                lookupNode_insertIfAbsent, hgf, hn] at hg'
    · rw [if_neg hflag] at h
      injection h with h
      subst h
      constructor
      · intro g hg
        cases hn : lookupNode g st.node_store_ with
        | none => simp [tracked, hn] at hg
        | some n =>
            by_cases hgf : g = fid
            · subst hgf
              simp [historyOf, lookupNode_insertIfAbsent, hn]
            · simp [historyOf, lookupNode_insertIfAbsent, hgf, hn]
      · intro g hg hg'
        cases hn : lookupNode g st.node_store_ with
        | some n => simp [tracked, hn] at hg
        | none =>
            by_cases hgf : g = fid
            · subst hgf
              simp [historyOf, lookupNode_insertIfAbsent, hn,
                defaultLRUKNode]
            · simp [tracked, lookupNode_insertIfAbsent, hgf, hn] at hg'

/-- The state after `SetEvictable(5, true)` on a fresh
`LRUKReplacer(10, 2)` (the spec's Scenario B): frame 5 gets a default
record whose flag is then raised, and the size becomes 1. -/
def stSetTrue : LRUKReplacer :=
  { node_store_ :=
      [(5, { history_ := [], fid_ := -1, k_ := 0, is_evictable_ := true })]
    current_timestamp_ := 0
    curr_size_ := 1
    replacer_size_ := 10
    k_ := 2 }

/-- Witness for `setEvictable_preserves_histories`: the record
`SetEvictable(5, true)` creates for the untracked frame 5 has an empty
history. -/
theorem setEvictable_preserves_histories_witness :
    setEvictable (mkLRUKReplacer 10 2) 5 true = Except.ok stSetTrue ∧
    (∀ g, tracked g (mkLRUKReplacer 10 2) = false →
      tracked g stSetTrue = true → historyOf g stSetTrue = some []) :=
  ⟨by decide,
   (setEvictable_preserves_histories (mkLRUKReplacer 10 2) 5 true stSetTrue
     (by decide)).2⟩

end LRUK
